import Mathlib

/-!
Verification of the authentication security core of the elysia-js-cms
repository against its natural-language specification.

The TypeScript sources are embedded shallowly:
* Prisma-backed state (`user` and `refreshToken` tables) becomes explicit
  association lists that every operation threads through; a Prisma `update`
  on a missing unique record rejects (error P2025), which is modelled by an
  `Option`-returning operation.
* `Date.now()` / `new Date()` become an explicit `now : Int` parameter
  (milliseconds since epoch).
* JavaScript string regex tests become decidable predicates over
  `List Char`.
-/

namespace AuthSec

/-- Model of `AUTH_CONFIG.MAX_LOGIN_ATTEMPTS` from `src/lib/auth-security.ts`. -/
def MAX_LOGIN_ATTEMPTS : Nat := 5

/-- Model of `AUTH_CONFIG.LOCKOUT_TIME_MINUTES * 60 * 1000` — the lockout window in
milliseconds (15 minutes). -/
def LOCKOUT_MS : Int := 15 * 60 * 1000

/-- One row of the Prisma `user` table, restricted to the columns the
lockout tracker reads and writes. -/
structure UserRec where
  id : Nat
  email : String
  loginAttempts : Nat
  lockedUntil : Option Int
deriving Repr, DecidableEq

/-- The `user` table. -/
abbrev UserDB := List UserRec

/-- Model of `prisma.user.findUnique({ where: { id } })`. -/
def findById (db : UserDB) (userId : Nat) : Option UserRec :=
  db.find? (fun u => u.id == userId)

/-- Model of `prisma.user.findUnique({ where: { email } })`. -/
def findByEmail (db : UserDB) (email : String) : Option UserRec :=
  db.find? (fun u => u.email == email)

/-- Model of `prisma.user.update({ where: { id }, data })`, applied to every row
whose id matches (ids are unique in the table, so at most one). -/
def updateById (db : UserDB) (userId : Nat) (f : UserRec → UserRec) : UserDB :=
  db.map (fun u => if u.id == userId then f u else u)

/-- Model of `incrementLoginAttempts` (`src/lib/auth-security.ts` lines 19-39).
Reads the user's current `loginAttempts`; a missing user is a no-op
(`if (!user) return`).  Otherwise stores `loginAttempts + 1` and, when the
new count has reached `MAX_LOGIN_ATTEMPTS`, sets `lockedUntil` to
`now + LOCKOUT_MS`; below the threshold the Prisma `undefined` leaves
`lockedUntil` unchanged. -/
def incrementLoginAttempts (db : UserDB) (now : Int) (userId : Nat) : UserDB :=
  match findById db userId with
  | none => db
  | some u =>
    let newAttempts := u.loginAttempts + 1
    updateById db userId (fun v =>
      { v with
        loginAttempts := newAttempts
        lockedUntil :=
          if MAX_LOGIN_ATTEMPTS ≤ newAttempts then some (now + LOCKOUT_MS)
          else v.lockedUntil })

/-- Model of `resetLoginAttempts` (lines 44-52): an unguarded
`prisma.user.update({ where: { id: userId } })`.  Prisma's `update`
rejects with P2025 when no record matches the unique `where`, so the
operation is modelled as `Option UserDB`, `none` meaning the rejected
promise (a throw at the caller). -/
def resetLoginAttempts (db : UserDB) (userId : Nat) : Option UserDB :=
  if (findById db userId).isSome then
    some (updateById db userId (fun v => { v with loginAttempts := 0, lockedUntil := none }))
  else none

/-- Model of `isAccountLocked` (lines 57-72).  Returns the lock verdict and the
possibly-mutated table (the expired-lock branch resets the user as a side
effect of the read).  In the reset branch the user is known to exist, so
the inner `resetLoginAttempts` cannot reject; `getD db` only discharges
the `Option`. -/
def isAccountLocked (db : UserDB) (now : Int) (userId : Nat) : Bool × UserDB :=
  match findById db userId with
  | none => (false, db)
  | some u =>
    match u.lockedUntil with
    | none => (false, db)
    | some lu =>
      if lu ≤ now then (false, (resetLoginAttempts db userId).getD db)
      else (true, db)

/-- Result shape of `checkAccountLockByEmail`. -/
structure LockStatus where
  isLocked : Bool
  lockedUntil : Option Int
deriving Repr, DecidableEq

/-- Model of `checkAccountLockByEmail` (lines 77-94).  Unknown email returns
`{ isLocked: false }`; otherwise delegates to `isAccountLocked` and
reports the `lockedUntil` read before the check (only when locked). -/
def checkAccountLockByEmail (db : UserDB) (now : Int) (email : String) :
    LockStatus × UserDB :=
  match findByEmail db email with
  | none => (⟨false, none⟩, db)
  | some u =>
    let r := isAccountLocked db now u.id
    (⟨r.1, if r.1 then u.lockedUntil else none⟩, r.2)

/-- One row of the Prisma `refreshToken` table. -/
structure TokenRec where
  token : String
  userId : Nat
  expiresAt : Int
deriving Repr, DecidableEq

/-- The `refreshToken` table. -/
abbrev TokenDB := List TokenRec

/-- Model of `validateRefreshToken` (lines 116-131): look the token up; absent is
invalid; present but `expiresAt <= now` deletes the record and is invalid;
otherwise returns the owning user id and leaves the table alone. -/
def validateRefreshToken (db : TokenDB) (now : Int) (tok : String) :
    Option Nat × TokenDB :=
  match db.find? (fun r => r.token == tok) with
  | none => (none, db)
  | some r =>
    if r.expiresAt ≤ now then (none, db.filter (fun x => !(x.token == tok)))
    else (some r.userId, db)

/-- Model of `revokeRefreshTokenSecure` (lines 163-178):
`prisma.refreshToken.deleteMany({ where: { token, userId } })` — a single
conditional delete whose count of removed rows decides the boolean
result. -/
def revokeRefreshTokenSecure (db : TokenDB) (tok : String) (uid : Nat) :
    Bool × TokenDB :=
  let deletedCount := (db.filter (fun r => r.token == tok && r.userId == uid)).length
  (decide (0 < deletedCount), db.filter (fun r => !(r.token == tok && r.userId == uid)))

end AuthSec

namespace RateLimit

/-- Model of `RateLimitData` from the rate-limit store module. -/
structure RateLimitData where
  count : Nat
  resetTime : Int
deriving Repr, DecidableEq

/-- The `MemoryRateLimitStore`'s backing `Map<string, RateLimitData>`,
modelled as an insertion-ordered association list. -/
abbrev Store := List (String × RateLimitData)

/-- Model of `Map.get`. -/
def storeFind (s : Store) (k : String) : Option RateLimitData :=
  (s.find? (fun p => p.1 == k)).map (fun p => p.2)

/-- Model of `Map.delete`. -/
def storeDelete (s : Store) (k : String) : Store :=
  s.filter (fun p => !(p.1 == k))

/-- Model of `Map.set`: replaces in place when the key is present, otherwise
appends (JS `Map` keeps insertion order). -/
def storeSet (s : Store) (k : String) (d : RateLimitData) : Store :=
  if (s.find? (fun p => p.1 == k)).isSome then
    s.map (fun p => if p.1 == k then (k, d) else p)
  else s ++ [(k, d)]

/-- Model of `MemoryRateLimitStore.get`: a miss or an entry with
`resetTime <= Date.now()` yields `null`, the expired entry being deleted
on the way out. -/
def memGet (s : Store) (k : String) (now : Int) : Option RateLimitData × Store :=
  match storeFind s k with
  | none => (none, s)
  | some d => if d.resetTime ≤ now then (none, storeDelete s k) else (some d, s)

/-- Model of `MemoryRateLimitStore.increment`: `get` then `count++` and `set`;
a missing (or expired) key throws, modelled by `none`. -/
def memIncrement (s : Store) (k : String) (now : Int) : Option (Nat × Store) :=
  match memGet s k now with
  | (none, _) => none
  | (some d, s1) =>
    let d2 : RateLimitData := { d with count := d.count + 1 }
    some (d2.count, storeSet s1 k d2)

/-- Result of `RateLimiter.check`. -/
structure CheckResult where
  allowed : Bool
  remaining : Int
  resetTime : Int
deriving Repr, DecidableEq

/-- Model of `RateLimiter.check` (rate-limit middleware, lines 48-97) over the
memory store: fresh or rolled-over window seeds `count = 1`; a counter at
`max` is rejected without increment; otherwise the store's atomic
increment supplies the new count (its throwing fallback re-implements the
increment manually, kept for fidelity although unreachable here). -/
def check (max : Nat) (windowMs : Int) (s : Store) (k : String) (now : Int) :
    CheckResult × Store :=
  match memGet s k now with
  | (none, s1) =>
    let newData : RateLimitData := { count := 1, resetTime := now + windowMs }
    (⟨true, (max : Int) - 1, newData.resetTime⟩, storeSet s1 k newData)
  | (some existing, s1) =>
    if existing.resetTime ≤ now then
      let newData : RateLimitData := { count := 1, resetTime := now + windowMs }
      (⟨true, (max : Int) - 1, newData.resetTime⟩, storeSet s1 k newData)
    else if max ≤ existing.count then
      (⟨false, 0, existing.resetTime⟩, s1)
    else
      match memIncrement s1 k now with
      | some (newCount, s2) =>
        (⟨true, (max : Int) - (newCount : Int), existing.resetTime⟩, s2)
      | none =>
        let d2 : RateLimitData := { existing with count := existing.count + 1 }
        (⟨true, (max : Int) - ((existing.count + 1 : Nat) : Int), existing.resetTime⟩,
          storeSet s1 k d2)

/-- Runs `check` over a list of request times, collecting the results and
threading the store. -/
def runChecks (max : Nat) (windowMs : Int) (s : Store) (k : String) :
    List Int → List CheckResult × Store
  | [] => ([], s)
  | t :: ts =>
    let r := check max windowMs s k t
    let rest := runChecks max windowMs r.2 k ts
    (r.1 :: rest.1, rest.2)

end RateLimit

namespace Password

/-- JavaScript strings are modelled as character lists so that regex
class tests and substring checks become decidable list predicates. -/
abbrev Str := List Char

def PASSWORD_MIN_LENGTH : Nat := 8
def PASSWORD_MAX_LENGTH : Nat := 128

/-- Regex class `[a-z]`. -/
def isLowerAscii (c : Char) : Bool := 'a' ≤ c && c ≤ 'z'

/-- Regex class `[A-Z]`. -/
def isUpperAscii (c : Char) : Bool := 'A' ≤ c && c ≤ 'Z'

/-- Regex class `\d`. -/
def isDigitAscii (c : Char) : Bool := '0' ≤ c && c ≤ '9'

/-- The symbol class of the modern validator:
`[!@#$%^&*(),.?":\x7b\x7d|<>\-_=+[\]\\;'` + backquote + `~]`.
The quote, braces, backslash, apostrophe and backquote characters are
spelled via `Char.ofNat` (34, 123, 125, 92, 39, 96). -/
def specialChars : Str :=
  "!@#$%^&*(),.?".data ++ [Char.ofNat 34, ':'] ++ [Char.ofNat 123, Char.ofNat 125] ++
    "|<>-_=+[]".data ++ [Char.ofNat 92, ';', Char.ofNat 39, Char.ofNat 96, '~']

/-- Regex `.` (no dot-all flag): any character except a line
terminator. -/
def isDotChar (c : Char) : Bool :=
  !(c == Char.ofNat 10 || c == Char.ofNat 13 || c == Char.ofNat 0x2028 || c == Char.ofNat 0x2029)

/-- Regex `/(.)\1{2,}/.test`: some character (not a line terminator)
occurs three or more times consecutively. -/
def hasTripleRepeat : Str → Bool
  | a :: b :: c :: rest =>
    (a == b && b == c && isDotChar a) || hasTripleRepeat (b :: c :: rest)
  | _ => false

/-- Whether `p` is the block `p.take n` repeated at least twice, covering
the whole string — one backtracking alternative of
`/^(.{1,2})\1+$/.test` with a captured block of length `n`. -/
def isBlockRepeat (p : Str) (n : Nat) : Bool :=
  decide (0 < n) && decide (2 * n ≤ p.length) && (p.length % n == 0) &&
    (p.take n).all isDotChar && p == (List.replicate (p.length / n) (p.take n)).flatten

/-- Regex `/^(.{1,2})\1+$/.test`: the whole string is a 1- or 2-character
block repeated at least twice. -/
def isSimpleRepeat (p : Str) : Bool := isBlockRepeat p 1 || isBlockRepeat p 2

/-- ASCII model of `String.prototype.toLowerCase`. -/
def toLowerChar (c : Char) : Char :=
  if 'A' ≤ c && c ≤ 'Z' then Char.ofNat (c.toNat + 32) else c

/-- The deny-list of `validatePasswordStrength`. -/
def weakPatterns : List Str :=
  ["password".data, "123456".data, "qwerty".data, "admin".data, "letmein".data]

/-- JavaScript `String.prototype.includes`: contiguous-substring test. -/
def includesSub (pat s : Str) : Bool := decide (List.IsInfix pat s)

/-- Model of `weakPatterns.some(pattern => password.toLowerCase().includes(pattern))`. -/
def containsWeakPattern (p : Str) : Bool :=
  weakPatterns.any (fun pat => includesSub pat (p.map toLowerChar))

/-- The cumulative score accumulated by `validatePasswordStrength`
(modern variant, `src/lib/password.ts` part of the concatenated source,
lines 275-326): length bucket, one point per character class, two
anti-pattern bonuses, and one point for avoiding the deny-list. -/
def passwordScore (p : Str) : Nat :=
  (if p.length < PASSWORD_MIN_LENGTH then 0 else if 12 ≤ p.length then 2 else 1)
  + (if p.any isLowerAscii then 1 else 0)
  + (if p.any isUpperAscii then 1 else 0)
  + (if p.any isDigitAscii then 1 else 0)
  + (if p.any (fun c => specialChars.contains c) then 1 else 0)
  + (if hasTripleRepeat p then 0 else 1)
  + (if isSimpleRepeat p then 0 else 1)
  + (if containsWeakPattern p then 0 else 1)

/-- The hard errors pushed by `validatePasswordStrength`, in source
order: minimum length, maximum length, deny-list hit. -/
def passwordErrors (p : Str) : List String :=
  (if p.length < PASSWORD_MIN_LENGTH then ["パスワードは8文字以上である必要があります"] else [])
  ++ (if PASSWORD_MAX_LENGTH < p.length then ["パスワードは128文字以下である必要があります"] else [])
  ++ (if containsWeakPattern p then ["一般的な弱いパスワードパターンが含まれています"] else [])

inductive Strength
  | weak
  | medium
  | strong
  | veryStrong
deriving Repr, DecidableEq

/-- The score-to-strength bucketing at the end of the validator. -/
def strengthOf (score : Nat) : Strength :=
  if score ≤ 3 then .weak else if score ≤ 5 then .medium
  else if score ≤ 7 then .strong else .veryStrong

structure StrengthResult where
  isValid : Bool
  errors : List String
  strength : Strength
deriving Repr, DecidableEq

/-- Model of `validatePasswordStrength` (lines 275-326):
`isValid = errors.length === 0 && score >= 4`. -/
def validatePasswordStrength (p : Str) : StrengthResult :=
  { isValid := (passwordErrors p).isEmpty && decide (4 ≤ passwordScore p)
    errors := passwordErrors p
    strength := strengthOf (passwordScore p) }

/-- The slice of `process.env` (and `NODE_ENV`) that `getPepper`
reads. -/
structure Env where
  jwtSecret : Option Str
  pepperSecret : Option Str
  isProduction : Bool

/-- The placeholder value `getPepper` refuses to use as a pepper. -/
def defaultSecretValue : Str := "your-secret-key-for-jwt-tokens".data

/-- The literal the development fallback pepper starts with. -/
def devFallbackTag : Str := "dev-fallback-pepper-".data

/-- JavaScript `a || b` over possibly-undefined env strings, flattened so
that both `undefined` and the empty string come out as `[]` (both are
falsy for the check that follows). -/
def jsOr (a b : Option Str) : Str :=
  match a with
  | some s => if s.isEmpty then b.getD [] else s
  | none => b.getD []

/-- Model of `getPepper` (lines 152-161): `JWT_SECRET || PEPPER_SECRET`; a missing
or placeholder value throws in production (`none`) and otherwise yields
`dev-fallback-pepper-` + fresh random hex, modelled by the explicit
`rand` argument (a fresh value per call). -/
def getPepper (env : Env) (rand : Str) : Option Str :=
  let pepper := jsOr env.jwtSecret env.pepperSecret
  if pepper.isEmpty || pepper == defaultSecretValue then
    if env.isProduction then none
    else some (devFallbackTag ++ rand)
  else some pepper

/-- The scheme tag of the current digest format. -/
def bunTag : Str := "bun:v1:".data

/-- The legacy PBKDF2 scheme tag. -/
def v2Tag : Str := "v2:".data

/-- Digest + version pair returned by `hashPassword`. -/
structure HashResult where
  hash : Str
  version : Str
deriving Repr, DecidableEq

/-- Model of `hashPassword` (lines 180-209).  `Bun.password.hash` (Argon2id with
the stated memory/time cost) is an external primitive, taken as the
parameter `bunHash`.  A strength-validation failure or a `getPepper`
throw propagates as `none`; otherwise the digest is the scheme tag
prepended to the hash of password-plus-pepper. -/
def hashPassword (bunHash : Str → Str) (env : Env) (rand : Str) (p : Str) :
    Option HashResult :=
  if !(validatePasswordStrength p).isValid then none
  else
    match getPepper env rand with
    | none => none
    | some pepper => some ⟨bunTag ++ bunHash (p ++ pepper), "bun:v1".data⟩

/-- Model of `verifyLegacyPassword` (lines 255-260): the v2 stub warns and returns
`false`. -/
def verifyLegacyPassword (_p _h : Str) : Bool := false

/-- Model of `verifyLegacySimplePassword` (lines 266-269): the `salt:hash` stub
warns and returns `false`. -/
def verifyLegacySimplePassword (_p _h : Str) : Bool := false

/-- Model of `verifyPassword` (lines 219-249).  `Bun.password.verify` is the
parameter `bunVerify`; the surrounding `try` turns any throw (including a
production `getPepper` throw) into `false`.  Dispatch: empty inputs are
falsy; a `bun:v1:` digest re-derives with the pepper and asks the
primitive (`replace('bun:v1:', '')` on a string with that prefix is
`drop 7`); `v2:` and bare `salt:hash` digests go to the always-false
legacy stubs; anything else warns and returns `false`. -/
def verifyPassword (bunVerify : Str → Str → Bool) (env : Env) (rand : Str)
    (p h : Str) : Bool :=
  if p.isEmpty || h.isEmpty then false
  else if bunTag.isPrefixOf h then
    match getPepper env rand with
    | none => false
    | some pepper => bunVerify (p ++ pepper) (h.drop bunTag.length)
  else if v2Tag.isPrefixOf h then
    verifyLegacyPassword p h
  else if h.contains ':' && !(includesSub v2Tag h) then
    verifyLegacySimplePassword p h
  else false

end Password

namespace Backup

/-- The `metadata` envelope of `src/lib/secure-backup.ts`. -/
structure BackupMetadata where
  timestamp : String
  version : String
  encrypted : Bool
  includesPasswords : Bool
  recordCount : Nat
deriving Repr, DecidableEq

/-- One backed-up record: a JSON object, as field-name/value pairs. -/
abbrev BRecord := List (String × String)

/-- Model of `SecureBackupData`: metadata plus the record sequence. -/
structure SecureBackupData where
  metadata : BackupMetadata
  data : List BRecord
deriving Repr, DecidableEq

/-- The contents of a backup file.  The JSON/AES-256-CBC round-trip is
abstracted: a plaintext file carries the parsed payload directly, an
encrypted file carries the payload together with the key it was encrypted
under (the random IV plays no semantic role beyond decryption, which the
`enc` constructor's key comparison models). -/
inductive FileContent
  | plain (d : SecureBackupData)
  | enc (key : String) (d : SecureBackupData)
deriving Repr, DecidableEq

/-- The ways `restoreSecureBackup` can throw. -/
inductive RestoreError
  | keyRequired
  | decryptFailed
  | parseFailed
deriving Repr, DecidableEq

/-- Model of `decryptBackup` (lines 190-213), abstracted: the right key recovers
the payload; a wrong key makes `decipher.final` throw, and feeding a
plaintext JSON file through the IV-splitting decryptor also throws. -/
def decryptBackup (content : FileContent) (key : String) :
    Except RestoreError SecureBackupData :=
  match content with
  | .enc k d => if k == key then .ok d else .error .decryptFailed
  | .plain _ => .error .decryptFailed

/-- Model of `restoreSecureBackup` (lines 115-140).  The encrypted/plain branch is
chosen by `backupPath.endsWith('.enc')` (the `pathIsEnc` flag); an
encrypted path without a key throws
`Encryption key required for encrypted backup restoration`; otherwise the
file is decrypted/parsed and the payload returned — with no check of
`metadata.recordCount` against `data.length`. -/
def restoreSecureBackup (pathIsEnc : Bool) (content : FileContent)
    (key : Option String) : Except RestoreError SecureBackupData :=
  if pathIsEnc then
    match key with
    | none => .error .keyRequired
    | some k => decryptBackup content k
  else
    match content with
    | .plain d => .ok d
    | .enc _ _ => .error .parseFailed

/-- Result shape of `validateBackup`. -/
structure ValidateResult where
  valid : Bool
  error : Option String
deriving Repr, DecidableEq

/-- The `Record count mismatch: ...` message prefix of `validateBackup`. -/
def recordCountMismatchMsg : String := "Record count mismatch"

/-- The messages of the errors `restoreSecureBackup` throws, as caught by
`validateBackup`'s `catch`. -/
def errMessage : RestoreError → String
  | .keyRequired => "Encryption key required for encrypted backup restoration"
  | .decryptFailed => "Decryption failed"
  | .parseFailed => "Invalid backup content"

/-- Model of `validateBackup` (lines 222-248): restore, then reject when
`data.length !== metadata.recordCount` (the structural
`!metadata || !Array.isArray(data)` guard always passes in this typed
model). -/
def validateBackup (pathIsEnc : Bool) (content : FileContent)
    (key : Option String) : ValidateResult :=
  match restoreSecureBackup pathIsEnc content key with
  | .error e => { valid := false, error := some (errMessage e) }
  | .ok d =>
    if d.data.length != d.metadata.recordCount then
      { valid := false, error := some recordCountMismatchMsg }
    else { valid := true, error := none }

end Backup

namespace BackupHeap

/-!
`createSecureBackup` sanitizes its input with
`data.map((record) => { const sanitized = { ...record }; delete sanitized.password; ... })`.
To state that the caller's records are not mutated, JavaScript objects
are modelled as heap cells: a record value is an address into a heap of
field maps, `{ ...record }` allocates a fresh cell, and `delete` mutates
a cell in place.
-/

/-- One JS object: field-name/value pairs. -/
abbrev Obj := List (String × String)

/-- The heap; addresses are list indices, allocation appends. -/
abbrev Heap := List Obj

/-- Allocate a fresh object, returning the new heap and the address. -/
def alloc (h : Heap) (o : Obj) : Heap × Nat := (h ++ [o], h.length)

/-- Overwrite the cell at an address. -/
def heapSet (h : Heap) (r : Nat) (o : Obj) : Heap := h.set r o

/-- Read the cell at an address. -/
def heapGet (h : Heap) (r : Nat) : Obj := h.getD r []

/-- JS `'password' in sanitized`. -/
def hasField (o : Obj) (f : String) : Bool := o.any (fun p => p.1 == f)

/-- JS `delete sanitized.password`. -/
def deleteField (o : Obj) (f : String) : Obj := o.filter (fun p => !(p.1 == f))

/-- The body of the `data.map` callback in `createSecureBackup`
(`src/lib/secure-backup.ts` lines 57-66): shallow-copy the record, then
when passwords are excluded and the copy has a `password` field, delete
it on the copy. -/
def sanitizeRecord (h : Heap) (r : Nat) (includePasswords : Bool) : Heap × Nat :=
  let orig := heapGet h r
  let h1 := (alloc h orig).1
  let c := (alloc h orig).2
  if !includePasswords && hasField orig "password" then
    (heapSet h1 c (deleteField orig "password"), c)
  else (h1, c)

/-- Model of `data.map(...)`: sanitize each record in order into a fresh array of
fresh objects, threading the heap. -/
def sanitizeAll (h : Heap) (refs : List Nat) (includePasswords : Bool) :
    Heap × List Nat :=
  match refs with
  | [] => (h, [])
  | r :: rs =>
    let first := sanitizeRecord h r includePasswords
    let rest := sanitizeAll first.1 rs includePasswords
    (rest.1, first.2 :: rest.2)

/-- The record-sanitization effect of `createSecureBackup`
(lines 45-77): the data path of the function up to the construction of
`backupData.data` (serialization, encryption and file output never touch
the record objects). -/
def createSecureBackup (h : Heap) (data : List Nat) (includePasswords : Bool) :
    Heap × List Nat :=
  sanitizeAll h data includePasswords

end BackupHeap

open AuthSec RateLimit Password Backup BackupHeap

section LockoutLemmas

/-- Effect of one recorded failure on a one-user table. -/
lemma inc_singleton (id : Nat) (email : String) (a : Nat) (lu : Option Int) (now : Int) :
    incrementLoginAttempts [⟨id, email, a, lu⟩] now id =
      [⟨id, email, a + 1,
        if MAX_LOGIN_ATTEMPTS ≤ a + 1 then some (now + LOCKOUT_MS) else lu⟩] := by
  simp [incrementLoginAttempts, findById, updateById, List.find?]

/-- A one-user table whose lock deadline is still in the future reports
locked, unchanged. -/
lemma isAccountLocked_singleton_locked (id : Nat) (email : String) (a : Nat)
    (lu now : Int) (h : ¬ lu ≤ now) :
    isAccountLocked [⟨id, email, a, some lu⟩] now id =
      (true, [⟨id, email, a, some lu⟩]) := by
  simp [isAccountLocked, findById, List.find?, h]

/-- Same, through the email-based entry point. -/
lemma checkByEmail_singleton_locked (id : Nat) (email : String) (a : Nat)
    (lu now : Int) (h : ¬ lu ≤ now) :
    checkAccountLockByEmail [⟨id, email, a, some lu⟩] now email =
      (⟨true, some lu⟩, [⟨id, email, a, some lu⟩]) := by
  simp [checkAccountLockByEmail, findByEmail, List.find?,
    isAccountLocked_singleton_locked _ _ _ _ _ h]

end LockoutLemmas

/-- C1 (counterexample): starting from `loginAttempts = 0`, five failures
recorded at time 0 lock the account until 900000 (15 minutes); the
account is still locked at time 1000, yet recording a sixth failure at
time 1000 rewrites `lockedUntil` to 901000 — the sixth failure *extends*
the stored deadline, contradicting the claim that it neither shortens nor
extends it. -/
theorem sixth_failure_extends_lock :
    incrementLoginAttempts (incrementLoginAttempts (incrementLoginAttempts
        (incrementLoginAttempts (incrementLoginAttempts [⟨1, "u@example.com", 0, none⟩]
          0 1) 0 1) 0 1) 0 1) 0 1
      = [⟨1, "u@example.com", 5, some 900000⟩]
    ∧ (isAccountLocked [⟨1, "u@example.com", 5, some 900000⟩] 1000 1).1 = true
    ∧ incrementLoginAttempts [⟨1, "u@example.com", 5, some 900000⟩] 1000 1
      = [⟨1, "u@example.com", 6, some 901000⟩]
    ∧ some (900000 : Int) ≠ some (901000 : Int) := by
  refine ⟨by decide, by decide, by decide, by decide⟩

/-- C1 (amended): for a user starting at `attemptCount = 0`, the lock
check reports `isLocked = true` after exactly 5 recorded failures (at any
check time before the deadline), and a 6th recorded failure rewrites
`lockedUntil` to its own call time plus the lockout window — so it never
*shortens* the deadline (when not recorded earlier than the 5th), though
it extends it whenever it happens strictly later. -/
theorem lockout_after_five_failures (id : Nat) (email : String)
    (t1 t2 t3 t4 t5 t6 tc : Int) (db5 : UserDB)
    (hdb5 : db5 = incrementLoginAttempts (incrementLoginAttempts
        (incrementLoginAttempts (incrementLoginAttempts
          (incrementLoginAttempts [⟨id, email, 0, none⟩] t1 id) t2 id) t3 id) t4 id) t5 id)
    (hc : tc < t5 + LOCKOUT_MS) (h56 : t5 ≤ t6) :
    db5 = [⟨id, email, 5, some (t5 + LOCKOUT_MS)⟩]
    ∧ (isAccountLocked db5 tc id).1 = true
    ∧ (checkAccountLockByEmail db5 tc email).1 = ⟨true, some (t5 + LOCKOUT_MS)⟩
    ∧ incrementLoginAttempts db5 t6 id = [⟨id, email, 6, some (t6 + LOCKOUT_MS)⟩]
    ∧ t5 + LOCKOUT_MS ≤ t6 + LOCKOUT_MS := by
  have hstate : db5 = [⟨id, email, 5, some (t5 + LOCKOUT_MS)⟩] := by
    simp [hdb5, inc_singleton, MAX_LOGIN_ATTEMPTS]
  subst hstate
  refine ⟨rfl, ?_, ?_, ?_, by omega⟩
  · rw [isAccountLocked_singleton_locked _ _ _ _ _ (by omega)]
  · rw [checkByEmail_singleton_locked _ _ _ _ _ (by omega)]
  · rw [inc_singleton]
    simp [MAX_LOGIN_ATTEMPTS]

/-- Witness for `lockout_after_five_failures` at a concrete user and
concrete times. -/
theorem lockout_after_five_failures_witness :
    (isAccountLocked [⟨1, "u@example.com", 5, some ((10 : Int) + LOCKOUT_MS)⟩] 500 1).1 = true
    ∧ incrementLoginAttempts [⟨1, "u@example.com", 5, some ((10 : Int) + LOCKOUT_MS)⟩] 40 1
      = [⟨1, "u@example.com", 6, some ((40 : Int) + LOCKOUT_MS)⟩] := by
  have h := lockout_after_five_failures 1 "u@example.com" 2 4 6 8 10 40 500 _ rfl
    (by decide) (by decide)
  exact ⟨h.2.1, h.2.2.2.1⟩

/-- C7: operations on identities with no matching user.
`checkAccountLockByEmail` for an unknown email reports not locked, and
`incrementLoginAttempts` for a missing id is a no-op — but
`resetLoginAttempts` for a missing id is an unguarded Prisma `update`,
which rejects (P2025), modelled by `none`: the code throws where the
specification promises it completes. -/
theorem reset_login_attempts_throws_on_missing_user :
    resetLoginAttempts ([] : UserDB) 999 = none
    ∧ incrementLoginAttempts ([] : UserDB) 0 999 = []
    ∧ checkAccountLockByEmail ([] : UserDB) 0 "nobody@example.com" = (⟨false, none⟩, []) := by
  refine ⟨rfl, rfl, rfl⟩

/-- In a table with pairwise-distinct token strings, `findUnique` on a
token held by a member returns exactly that member. -/
lemma find_token_unique (db : TokenDB) (tok : String) (r : TokenRec)
    (huniq : db.Pairwise (fun a b => a.token ≠ b.token)) (hr : r ∈ db)
    (ht : r.token = tok) :
    db.find? (fun x => x.token == tok) = some r := by
  induction db with
  | nil => cases hr
  | cons a rest ih =>
    rcases List.mem_cons.1 hr with h | h
    · subst h
      simp [List.find?, ht]
    · have hne : a.token ≠ tok := by
        have := (List.pairwise_cons.1 huniq).1 r h
        rw [ht] at this
        exact this
      have hcond : (a.token == tok) = false := by simpa using hne
      simp only [List.find?, hcond]
      exact ih (List.pairwise_cons.1 huniq).2 h

/-- C2: `revokeRefreshTokenSecure` is the single conditional delete
`deleteMany({ token, userId })`: it returns `true` exactly when some
record with that token *and* that owner was present (and deleted), it
removes nothing else, and when no record matches — in particular when the
token's owner is a different user — it returns `false` and leaves the
store unchanged. -/
theorem revoke_secure_conditional_delete (db : TokenDB) (tok : String) (uid : Nat) :
    ((revokeRefreshTokenSecure db tok uid).1 = true ↔
      ∃ r ∈ db, r.token = tok ∧ r.userId = uid)
    ∧ (∀ r ∈ db, r.token ≠ tok ∨ r.userId ≠ uid →
        r ∈ (revokeRefreshTokenSecure db tok uid).2)
    ∧ (∀ r ∈ (revokeRefreshTokenSecure db tok uid).2,
        r ∈ db ∧ ¬(r.token = tok ∧ r.userId = uid))
    ∧ ((∀ r ∈ db, ¬(r.token = tok ∧ r.userId = uid)) →
        revokeRefreshTokenSecure db tok uid = (false, db)) := by
  refine ⟨?_, ?_, ?_, ?_⟩
  · simp only [revokeRefreshTokenSecure, decide_eq_true_eq]
    rw [List.length_pos_iff_exists_mem]
    constructor
    · rintro ⟨r, hr⟩
      rw [List.mem_filter] at hr
      refine ⟨r, hr.1, ?_⟩
      simpa [Bool.and_eq_true] using hr.2
    · rintro ⟨r, hr, h1, h2⟩
      exact ⟨r, List.mem_filter.2 ⟨hr, by simp [h1, h2]⟩⟩
  · intro r hr hcond
    simp only [revokeRefreshTokenSecure]
    refine List.mem_filter.2 ⟨hr, ?_⟩
    rcases hcond with h | h <;> simp [h]
  · intro r hr
    simp only [revokeRefreshTokenSecure] at hr
    rw [List.mem_filter] at hr
    refine ⟨hr.1, ?_⟩
    have := hr.2
    simp only [Bool.not_eq_true', Bool.and_eq_false_iff] at this
    rintro ⟨h1, h2⟩
    rcases this with h | h <;> simp [h1, h2] at h
  · intro hnone
    simp only [revokeRefreshTokenSecure]
    have hfil : db.filter (fun r => r.token == tok && r.userId == uid) = [] := by
      rw [List.filter_eq_nil_iff]
      intro r hr
      have := hnone r hr
      simp only [Bool.and_eq_true, beq_iff_eq]
      tauto
    have hall : db.filter (fun r => !(r.token == tok && r.userId == uid)) = db := by
      rw [List.filter_eq_self]
      intro r hr
      have := hnone r hr
      simp only [Bool.not_eq_true', Bool.and_eq_false_iff]
      by_cases h1 : r.token = tok
      · right
        simp only [beq_eq_false_iff_ne, ne_eq]
        intro h2
        exact this ⟨h1, h2⟩
      · left
        simpa using h1
    rw [hfil, hall]
    simp

/-- Witness for `revoke_secure_conditional_delete`: a two-record store;
revoking user 1's token on behalf of user 2 fails and changes nothing,
while the true owner's revocation succeeds. -/
theorem revoke_secure_conditional_delete_witness :
    revokeRefreshTokenSecure [⟨"t1", 1, 100⟩, ⟨"t2", 2, 100⟩] "t1" 2
        = (false, [⟨"t1", 1, 100⟩, ⟨"t2", 2, 100⟩])
    ∧ (revokeRefreshTokenSecure [⟨"t1", 1, 100⟩, ⟨"t2", 2, 100⟩] "t1" 1).1 = true := by
  constructor
  · exact (revoke_secure_conditional_delete _ "t1" 2).2.2.2 (by decide)
  · exact (revoke_secure_conditional_delete
      [⟨"t1", 1, 100⟩, ⟨"t2", 2, 100⟩] "t1" 1).1.2
      ⟨⟨"t1", 1, 100⟩, by decide, rfl, rfl⟩

/-- C3: `validateRefreshToken` on a store with unique token strings:
an absent token is invalid and leaves the store alone; a present but
expired token (`expiresAt <= now`) is invalid and its record is deleted;
a live token yields its owner's id with the store untouched. -/
theorem validate_refresh_token_cases (db : TokenDB) (now : Int) (tok : String)
    (huniq : db.Pairwise (fun a b => a.token ≠ b.token)) :
    ((∀ r ∈ db, r.token ≠ tok) → validateRefreshToken db now tok = (none, db))
    ∧ (∀ r ∈ db, r.token = tok → r.expiresAt ≤ now →
        validateRefreshToken db now tok = (none, db.filter (fun x => !(x.token == tok)))
        ∧ (∀ x ∈ (validateRefreshToken db now tok).2, x.token ≠ tok)
        ∧ (∀ x ∈ db, x.token ≠ tok → x ∈ (validateRefreshToken db now tok).2))
    ∧ (∀ r ∈ db, r.token = tok → now < r.expiresAt →
        validateRefreshToken db now tok = (some r.userId, db)) := by
  refine ⟨?_, ?_, ?_⟩
  · intro hab
    have : db.find? (fun r => r.token == tok) = none := by
      rw [List.find?_eq_none]
      intro x hx
      simpa using hab x hx
    simp [validateRefreshToken, this]
  · intro r hr ht hexp
    have hf := find_token_unique db tok r huniq hr ht
    have heq : validateRefreshToken db now tok
        = (none, db.filter (fun x => !(x.token == tok))) := by
      simp [validateRefreshToken, hf, hexp]
    refine ⟨heq, ?_, ?_⟩
    · intro x hx
      rw [heq] at hx
      have := (List.mem_filter.1 hx).2
      simpa using this
    · intro x hx hxt
      rw [heq]
      exact List.mem_filter.2 ⟨hx, by simpa using hxt⟩
  · intro r hr ht hlive
    have hf := find_token_unique db tok r huniq hr ht
    simp [validateRefreshToken, hf, not_le.2 hlive]

/-- First request for a key: seeds `count = 1`, allows with
`remaining = max - 1`. -/
lemma check_empty (k : String) (t : Int) :
    check 5 1000 [] k t = (⟨true, 4, t + 1000⟩, [(k, ⟨1, t + 1000⟩)]) := by
  have : ((5 : Int) - 1) = 4 := by norm_num
  simp [check, memGet, storeFind, storeSet, List.find?, this]

/-- A further request inside the window while under the limit: increments
the counter, allows with `remaining = max - newCount`. -/
lemma check_inWindow (k : String) (c : Nat) (rt now : Int)
    (h1 : ¬ rt ≤ now) (h2 : c < 5) :
    check 5 1000 [(k, ⟨c, rt⟩)] k now =
      (⟨true, (5 : Int) - ((c + 1 : Nat) : Int), rt⟩, [(k, ⟨c + 1, rt⟩)]) := by
  have h3 : ¬ (5 ≤ c) := by omega
  simp [check, memGet, storeFind, storeSet, memIncrement, List.find?, h1, h3]

/-- A request inside the window at the limit: rejected with
`remaining = 0`, counter not incremented. -/
lemma check_blocked (k : String) (c : Nat) (rt now : Int)
    (h1 : ¬ rt ≤ now) (h2 : 5 ≤ c) :
    check 5 1000 [(k, ⟨c, rt⟩)] k now = (⟨false, 0, rt⟩, [(k, ⟨c, rt⟩)]) := by
  simp [check, memGet, storeFind, List.find?, h1, h2]

/-- A request at or past `resetTime`: the stale counter is evicted and a
fresh window starts. -/
lemma check_rolled (k : String) (c : Nat) (rt now : Int) (h : rt ≤ now) :
    check 5 1000 [(k, ⟨c, rt⟩)] k now =
      (⟨true, 4, now + 1000⟩, [(k, ⟨1, now + 1000⟩)]) := by
  have : ((5 : Int) - 1) = 4 := by norm_num
  simp [check, memGet, storeFind, storeDelete, storeSet, List.find?, h, this]

/-- C4: with `max = 5, windowMs = 1000`, for any key: six requests whose
later five fall before the first request's `resetTime` are answered
`allowed = true` with `remaining` 4,3,2,1,0 and then `allowed = false`
with `remaining = 0`, the stored counter stopping at 5; the first request
at or after `resetTime` is allowed again with `remaining = max - 1` under
a fresh counter. -/
theorem rate_limit_window_behavior (k : String) (t1 t2 t3 t4 t5 t6 t7 : Int)
    (h2 : t2 < t1 + 1000) (h3 : t3 < t1 + 1000) (h4 : t4 < t1 + 1000)
    (h5 : t5 < t1 + 1000) (h6 : t6 < t1 + 1000) (h7 : t1 + 1000 ≤ t7) :
    runChecks 5 1000 [] k [t1, t2, t3, t4, t5, t6]
      = ([⟨true, 4, t1 + 1000⟩, ⟨true, 3, t1 + 1000⟩, ⟨true, 2, t1 + 1000⟩,
          ⟨true, 1, t1 + 1000⟩, ⟨true, 0, t1 + 1000⟩, ⟨false, 0, t1 + 1000⟩],
         [(k, ⟨5, t1 + 1000⟩)])
    ∧ check 5 1000 [(k, ⟨5, t1 + 1000⟩)] k t7
      = (⟨true, 4, t7 + 1000⟩, [(k, ⟨1, t7 + 1000⟩)]) := by
  have e1 := check_empty k t1
  have e2 := check_inWindow k 1 (t1 + 1000) t2 (by omega) (by omega)
  have e3 := check_inWindow k 2 (t1 + 1000) t3 (by omega) (by omega)
  have e4 := check_inWindow k 3 (t1 + 1000) t4 (by omega) (by omega)
  have e5 := check_inWindow k 4 (t1 + 1000) t5 (by omega) (by omega)
  have e6 := check_blocked k 5 (t1 + 1000) t6 (by omega) (by omega)
  norm_num at e2 e3 e4 e5
  refine ⟨?_, check_rolled k 5 (t1 + 1000) t7 h7⟩
  simp [runChecks, e1, e2, e3, e4, e5, e6]

/-- Witness for `rate_limit_window_behavior` at a concrete key and
concrete request times. -/
theorem rate_limit_window_behavior_witness :
    runChecks 5 1000 [] "auth:1.2.3.4" [0, 100, 200, 300, 400, 500]
      = ([⟨true, 4, 1000⟩, ⟨true, 3, 1000⟩, ⟨true, 2, 1000⟩,
          ⟨true, 1, 1000⟩, ⟨true, 0, 1000⟩, ⟨false, 0, 1000⟩],
         [("auth:1.2.3.4", ⟨5, 1000⟩)])
    ∧ check 5 1000 [("auth:1.2.3.4", ⟨5, 1000⟩)] "auth:1.2.3.4" 1000
      = (⟨true, 4, 2000⟩, [("auth:1.2.3.4", ⟨1, 2000⟩)]) := by
  have h := rate_limit_window_behavior "auth:1.2.3.4" 0 100 200 300 400 500 1000
    (by norm_num) (by norm_num) (by norm_num) (by norm_num) (by norm_num) (by norm_num)
  simpa using h

/-- A password accepted by the strength validator is nonempty (an empty
password trips the minimum-length error). -/
lemma valid_password_ne_nil (p : Str)
    (h : (validatePasswordStrength p).isValid = true) : p ≠ [] := by
  intro hp
  rw [hp] at h
  exact absurd h (by decide)

/-- With a configured, non-placeholder secret, `getPepper` ignores its
random input and deterministically returns that secret. -/
lemma getPepper_configured (env : Env)
    (hne0 : ¬ (jsOr env.jwtSecret env.pepperSecret).isEmpty = true)
    (hnd : jsOr env.jwtSecret env.pepperSecret ≠ defaultSecretValue) :
    ∀ r : Str, getPepper env r = some (jsOr env.jwtSecret env.pepperSecret) := by
  intro r
  have h1 : (jsOr env.jwtSecret env.pepperSecret).isEmpty = false :=
    Bool.eq_false_iff.mpr hne0
  have h2 : (jsOr env.jwtSecret env.pepperSecret == defaultSecretValue) = false := by
    simpa using hnd
  simp [getPepper, h1, h2]

/-- C5: with the external Argon2id primitive (`Bun.password`) taken as an
oracle that accepts exactly the preimage it hashed, and a configured
non-placeholder pepper secret (so `getPepper` is deterministic at hash
and verify time), `hashPassword` of a validator-accepted password
produces a digest that `verifyPassword` accepts for that password and
rejects for every other validator-accepted password. -/
theorem hash_verify_round_trip
    (bunHash : Str → Str) (bunVerify : Str → Str → Bool)
    (oracle : ∀ x y, bunVerify x (bunHash y) = true ↔ x = y)
    (env : Env) (r1 r2 : Str)
    (hne0 : ¬ (jsOr env.jwtSecret env.pepperSecret).isEmpty = true)
    (hnd : jsOr env.jwtSecret env.pepperSecret ≠ defaultSecretValue)
    (p1 p2 : Str)
    (hv1 : (validatePasswordStrength p1).isValid = true)
    (hv2 : (validatePasswordStrength p2).isValid = true)
    (hne : p1 ≠ p2) :
    ∃ res, hashPassword bunHash env r1 p1 = some res
      ∧ verifyPassword bunVerify env r2 p1 res.hash = true
      ∧ verifyPassword bunVerify env r2 p2 res.hash = false := by
  have hpep := getPepper_configured env hne0 hnd
  have hhash : hashPassword bunHash env r1 p1 =
      some ⟨bunTag ++ bunHash (p1 ++ jsOr env.jwtSecret env.pepperSecret),
        "bun:v1".data⟩ := by
    simp [hashPassword, hv1, hpep r1]
  refine ⟨_, hhash, ?_, ?_⟩
  · have hp1 : p1.isEmpty = false := by simpa using valid_password_ne_nil p1 hv1
    have hh : (bunTag ++ bunHash (p1 ++ jsOr env.jwtSecret env.pepperSecret)).isEmpty
        = false := by simp [bunTag]
    have hpre : bunTag.isPrefixOf
        (bunTag ++ bunHash (p1 ++ jsOr env.jwtSecret env.pepperSecret)) = true := by
      rw [List.isPrefixOf_iff_prefix]
      exact List.prefix_append _ _
    simp only [verifyPassword, hp1, hh, Bool.or_self, Bool.false_eq_true, if_false,
      hpre, if_true, hpep r2, List.drop_left]
    exact (oracle _ _).mpr rfl
  · have hp2 : p2.isEmpty = false := by simpa using valid_password_ne_nil p2 hv2
    have hh : (bunTag ++ bunHash (p1 ++ jsOr env.jwtSecret env.pepperSecret)).isEmpty
        = false := by simp [bunTag]
    have hpre : bunTag.isPrefixOf
        (bunTag ++ bunHash (p1 ++ jsOr env.jwtSecret env.pepperSecret)) = true := by
      rw [List.isPrefixOf_iff_prefix]
      exact List.prefix_append _ _
    simp only [verifyPassword, hp2, hh, Bool.or_self, Bool.false_eq_true, if_false,
      hpre, if_true, hpep r2, List.drop_left]
    rw [Bool.eq_false_iff]
    intro hacc
    have := (oracle _ _).mp hacc
    exact hne ((List.append_cancel_right this).symm)

/-- Witness for `hash_verify_round_trip`: identity hash / equality
verifier as the oracle, a configured secret, two concrete valid
passwords, distinct randomness at hash and verify time. -/
theorem hash_verify_round_trip_witness :
    ∃ res, hashPassword (fun s => s) ⟨some "test-secret-value".data, none, false⟩ []
        "Abcdef1!".data = some res
      ∧ verifyPassword (fun a b => a == b) ⟨some "test-secret-value".data, none, false⟩
        "ff".data "Abcdef1!".data res.hash = true
      ∧ verifyPassword (fun a b => a == b) ⟨some "test-secret-value".data, none, false⟩
        "ff".data "Abcdef2-".data res.hash = false := by
  refine hash_verify_round_trip (fun s => s) (fun a b => a == b)
    (fun x y => beq_iff_eq) ⟨some "test-secret-value".data, none, false⟩ [] "ff".data
    (by decide) (by decide) "Abcdef1!".data "Abcdef2-".data
    (by decide) (by decide) (by decide)

/-- C6: `verifyPassword` is total (the surrounding `try` catches every
throw) and fails closed: empty inputs are rejected, and any digest that
does not carry the current `bun:v1:` scheme tag — legacy `v2:`, bare
`salt:hash`, or unrecognized — verifies to `false` no matter what the
underlying primitive would say. -/
theorem verify_password_fails_closed
    (bunVerify : Str → Str → Bool) (env : Env) (rand : Str) (p h : Str) :
    ((p = [] ∨ h = []) → verifyPassword bunVerify env rand p h = false)
    ∧ (bunTag.isPrefixOf h = false → verifyPassword bunVerify env rand p h = false) := by
  constructor
  · rintro (hp | hh)
    · simp [verifyPassword, hp]
    · simp [verifyPassword, hh]
  · intro hpre
    simp only [verifyPassword, hpre, Bool.false_eq_true, if_false,
      verifyLegacyPassword, verifyLegacySimplePassword]
    split <;> simp

/-- Witness for `verify_password_fails_closed`: even a primitive that
accepts everything cannot make a legacy `v2:` digest or an empty
password verify. -/
theorem verify_password_fails_closed_witness :
    verifyPassword (fun _ _ => true) ⟨some "test-secret-value".data, none, false⟩ []
      "SomePass1!".data "v2:deadbeef".data = false
    ∧ verifyPassword (fun _ _ => true) ⟨some "test-secret-value".data, none, false⟩ []
      [] "bun:v1:x".data = false := by
  constructor
  · exact (verify_password_fails_closed _ _ _ _ _).2 (by decide)
  · exact (verify_password_fails_closed _ _ _ _ _).1 (Or.inl rfl)

/-- C8: `isValid` demands both an empty error list and a cumulative score
of at least 4; the all-lowercase minimum-length password `aaaaaaaa`
triggers no individual error yet scores only 3 and is rejected. -/
theorem is_valid_requires_score_floor :
    (∀ p : Str, (validatePasswordStrength p).isValid = true →
      passwordErrors p = [] ∧ 4 ≤ passwordScore p)
    ∧ passwordErrors ("aaaaaaaa".data) = []
    ∧ passwordScore ("aaaaaaaa".data) = 3
    ∧ (validatePasswordStrength ("aaaaaaaa".data)).isValid = false := by
  refine ⟨?_, by decide, by decide, by decide⟩
  intro p hp
  simp only [validatePasswordStrength, Bool.and_eq_true, List.isEmpty_iff,
    decide_eq_true_eq] at hp
  exact hp

/-- Witness for `is_valid_requires_score_floor`: the first conjunct
applied to a concrete accepted password. -/
theorem is_valid_requires_score_floor_witness :
    passwordErrors ("Abcdef1!".data) = [] ∧ 4 ≤ passwordScore ("Abcdef1!".data) :=
  is_valid_requires_score_floor.1 ("Abcdef1!".data) (by decide)

/-- C9 (counterexample): a plaintext backup whose metadata declares
`recordCount = 2` over a single decoded record is restored successfully —
`restoreSecureBackup` returns the records without any integrity failure,
so a restore that returns records does *not* imply the declared count
matches (the count check lives in `validateBackup` only). -/
theorem restore_ignores_record_count_mismatch :
    restoreSecureBackup false
        (FileContent.plain ⟨⟨"2025-01-01", "1.0", false, false, 2⟩, [[("id", "1")]]⟩)
        none
      = .ok ⟨⟨"2025-01-01", "1.0", false, false, 2⟩, [[("id", "1")]]⟩
    ∧ (2 : Nat) ≠ [[("id", "1")]].length := by
  exact ⟨rfl, by decide⟩

/-- C9 (amended): `restoreSecureBackup` fails with the key-required error
whenever the path marks the backup encrypted and no key is supplied (and
can only return records in that case when a key was supplied), while the
record-count integrity check is performed by `validateBackup`: a
validation that reports `valid` implies the restore succeeded with
matching count, and any restored payload with a mismatched count is
rejected by `validateBackup` with the record-count-mismatch error. -/
theorem backup_restore_amended (pathIsEnc : Bool) (content : FileContent)
    (key : Option String) :
    (pathIsEnc = true → key = none →
      restoreSecureBackup pathIsEnc content key = .error .keyRequired)
    ∧ (∀ d, restoreSecureBackup pathIsEnc content key = .ok d →
        pathIsEnc = true → key ≠ none)
    ∧ ((validateBackup pathIsEnc content key).valid = true →
        ∃ d, restoreSecureBackup pathIsEnc content key = .ok d
          ∧ d.metadata.recordCount = d.data.length)
    ∧ (∀ d, restoreSecureBackup pathIsEnc content key = .ok d →
        d.data.length ≠ d.metadata.recordCount →
        validateBackup pathIsEnc content key =
          ⟨false, some recordCountMismatchMsg⟩) := by
  refine ⟨?_, ?_, ?_, ?_⟩
  · intro h1 h2
    subst h1; subst h2
    rfl
  · intro d hd hp hk
    subst hp; subst hk
    simp [restoreSecureBackup] at hd
  · intro hv
    rcases hrest : restoreSecureBackup pathIsEnc content key with e | d
    · simp [validateBackup, hrest] at hv
    · refine ⟨d, rfl, ?_⟩
      by_cases hlen : d.data.length = d.metadata.recordCount
      · exact hlen.symm
      · have hb : (d.data.length != d.metadata.recordCount) = true := bne_iff_ne.mpr hlen
        simp [validateBackup, hrest, hb] at hv
  · intro d hd hne
    have hb : (d.data.length != d.metadata.recordCount) = true := bne_iff_ne.mpr hne
    simp [validateBackup, hd, hb]

/-- Witness for `backup_restore_amended`: an encrypted backup restored
without a key fails with the key-required error, and a plaintext backup
with a forged record count fails validation with the mismatch error. -/
theorem backup_restore_amended_witness :
    restoreSecureBackup true
        (FileContent.enc "k1" ⟨⟨"2025-01-01", "1.0", true, false, 1⟩, [[("id", "1")]]⟩)
        none
      = .error .keyRequired
    ∧ validateBackup false
        (FileContent.plain ⟨⟨"2025-01-01", "1.0", false, false, 2⟩, [[("id", "1")]]⟩)
        none
      = ⟨false, some recordCountMismatchMsg⟩ := by
  constructor
  · exact (backup_restore_amended true
      (FileContent.enc "k1" ⟨⟨"2025-01-01", "1.0", true, false, 1⟩, [[("id", "1")]]⟩)
      none).1 rfl rfl
  · exact (backup_restore_amended false
      (FileContent.plain ⟨⟨"2025-01-01", "1.0", false, false, 2⟩, [[("id", "1")]]⟩)
      none).2.2.2 _ rfl (by decide)

/-- One record's sanitization only writes to the freshly allocated copy:
every pre-existing heap cell is untouched and the heap only grows. -/
lemma sanitizeRecord_preserves (h : Heap) (r : Nat) (inc : Bool) :
    (∀ i, i < h.length → heapGet (sanitizeRecord h r inc).1 i = heapGet h i)
    ∧ h.length ≤ (sanitizeRecord h r inc).1.length := by
  by_cases hc : (!inc && hasField (heapGet h r) "password") = true
  · have hrec : (sanitizeRecord h r inc).1
        = (h ++ [heapGet h r]).set h.length (deleteField (heapGet h r) "password") := by
      simp [sanitizeRecord, alloc, heapSet, hc]
    constructor
    · intro i hi
      rw [hrec]
      simp only [heapGet, List.getD_eq_getElem?_getD]
      rw [List.getElem?_set_ne (by omega), List.getElem?_append_left hi]
    · rw [hrec]
      simp
  · have hrec : (sanitizeRecord h r inc).1 = h ++ [heapGet h r] := by
      simp [sanitizeRecord, alloc, hc]
    constructor
    · intro i hi
      rw [hrec]
      simp only [heapGet, List.getD_eq_getElem?_getD]
      rw [List.getElem?_append_left hi]
    · rw [hrec]
      simp

/-- The record-by-record sanitization pass never mutates a pre-existing
heap cell. -/
lemma sanitizeAll_preserves (refs : List Nat) (h : Heap) (inc : Bool) :
    (∀ i, i < h.length → heapGet (sanitizeAll h refs inc).1 i = heapGet h i)
    ∧ h.length ≤ (sanitizeAll h refs inc).1.length := by
  induction refs generalizing h with
  | nil => simp [sanitizeAll]
  | cons r rs ih =>
    simp only [sanitizeAll]
    obtain ⟨hp1, hl1⟩ := sanitizeRecord_preserves h r inc
    obtain ⟨hp2, hl2⟩ := ih (sanitizeRecord h r inc).1
    constructor
    · intro i hi
      rw [hp2 i (lt_of_lt_of_le hi hl1), hp1 i hi]
    · exact le_trans hl1 hl2

/-- C10: `createSecureBackup` leaves its input unchanged — after the
call, every object that existed in the heap before it (in particular
every record the caller passed in) still holds exactly the same fields
and values, because the password stripping is performed on the freshly
allocated shallow copies. -/
theorem create_secure_backup_preserves_input (h : Heap) (data : List Nat)
    (includePasswords : Bool) :
    (∀ i, i < h.length →
      heapGet (createSecureBackup h data includePasswords).1 i = heapGet h i)
    ∧ (∀ r ∈ data, r < h.length →
      heapGet (createSecureBackup h data includePasswords).1 r = heapGet h r) := by
  obtain ⟨hp, _⟩ := sanitizeAll_preserves data h includePasswords
  exact ⟨hp, fun r _ hr => hp r hr⟩

/-- Witness for `create_secure_backup_preserves_input`: a one-record heap
whose record carries a `password` field; after a default
(password-stripping) backup the original object still has it. -/
theorem create_secure_backup_preserves_input_witness :
    heapGet (createSecureBackup [[("email", "a@b.c"), ("password", "hunter2")]]
      [0] false).1 0 = [("email", "a@b.c"), ("password", "hunter2")] := by
  have := (create_secure_backup_preserves_input
    [[("email", "a@b.c"), ("password", "hunter2")]] [0] false).2 0 (by decide) (by decide)
  simpa using this

/-- Witness for `validate_refresh_token_cases`: a single stored token is
accepted while live, lazily deleted once expired, and an unknown token is
rejected. -/
theorem validate_refresh_token_cases_witness :
    validateRefreshToken [⟨"tok", 7, 50⟩] 10 "tok" = (some 7, [⟨"tok", 7, 50⟩])
    ∧ validateRefreshToken [⟨"tok", 7, 50⟩] 60 "tok" = (none, [])
    ∧ validateRefreshToken [⟨"tok", 7, 50⟩] 10 "other" = (none, [⟨"tok", 7, 50⟩]) := by
  refine ⟨?_, ?_, ?_⟩
  · exact (validate_refresh_token_cases [⟨"tok", 7, 50⟩] 10 "tok" (by decide)).2.2
      ⟨"tok", 7, 50⟩ (by decide) rfl (by decide)
  · exact ((validate_refresh_token_cases [⟨"tok", 7, 50⟩] 60 "tok" (by decide)).2.1
      ⟨"tok", 7, 50⟩ (by decide) rfl (by decide)).1
  · exact (validate_refresh_token_cases [⟨"tok", 7, 50⟩] 10 "other" (by decide)).1
      (by decide)
